import Mathlib

set_option autoImplicit false

/-!
Verification of the bundle-reducer tool (`tools/lib/bundle_reducer/reducer_cli.py`)
and its subset-extraction core against the repository specification.

The driver (`option_handler`, `main`) is embedded from the source file.
The extraction core (`extract_services` in `lib.common.tools_common`) is not
part of the visible sources; it is modelled from the specification, as noted
on each such definition.
-/

namespace BundleReducer

/-- A service attribute block: an ordered association list of attribute keys to
opaque values (values are irrelevant to the extraction logic beyond copying). -/
abbrev Service := List (String × String)

/-- The `services` section of a decoded document: either a genuine mapping from
service names to attribute blocks, or some non-mapping value. -/
inductive ServicesSection where
  | mapping (entries : List (String × Service))
  | scalar
deriving DecidableEq, Repr

/-- A decoded bundle document: an optional `services` section, a `relations`
sequence of endpoint-specifier pairs (each endpoint a string, optionally
`service:interface`), and the remaining opaque top-level keys. -/
structure Document where
  services  : Option ServicesSection
  relations : List (String × String)
  other     : List (String × String)
deriving DecidableEq, Repr

/-- Failure modes of the extraction core. -/
inductive ExtractError where
  | invalidDocument
deriving DecidableEq, Repr

/-- Characters of an endpoint specifier up to (excluding) the first colon. -/
def takeUntilColon : List Char → List Char
  | [] => []
  | c :: cs => if c = ':' then [] else c :: takeUntilColon cs

/-- Strip an optional `:interface` suffix from an endpoint specifier, leaving
the bare service name. -/
def stripInterface (ep : String) : String :=
  String.mk (takeUntilColon ep.data)

/-- Service names present in the document (keys of the services mapping). -/
def knownNames (entries : List (String × Service)) : List String :=
  entries.map Prod.fst

/-- Modelled from the spec: step 2a of the extraction algorithm of the missing
`extract_services` routine — a name is initially kept when it is both in the
include set and present among the document services
(`kept = include ∩ services_present`). -/
def baseKept (entries : List (String × Service)) (incl : List String)
    (name : String) : Bool :=
  incl.contains name && (knownNames entries).contains name

/-- Modelled from the spec: step 2b of the extraction algorithm of the missing
`extract_services` routine — `name` is pulled in by related-service expansion
when it is a known service and some relation edge has exactly one endpoint in
the initially-kept set with `name` as the other endpoint (a single pass over
direct neighbours, no transitive closure). -/
def oneHop (entries : List (String × Service)) (rels : List (String × String))
    (incl : List String) (name : String) : Bool :=
  (knownNames entries).contains name &&
  rels.any (fun r =>
    (baseKept entries incl (stripInterface r.1)
       && !(baseKept entries incl (stripInterface r.2))
       && stripInterface r.2 == name) ||
    (baseKept entries incl (stripInterface r.2)
       && !(baseKept entries incl (stripInterface r.1))
       && stripInterface r.1 == name))

/-- Modelled from the spec: step 2 of the extraction algorithm of the missing
`extract_services` routine — the final kept-service set: the include set
intersected with the known services, expanded by one-hop neighbours unless
`excludeRelated`, with the exclude set subtracted last. -/
def kept (entries : List (String × Service)) (rels : List (String × String))
    (incl excl : List String) (excludeRelated : Bool) (name : String) : Bool :=
  (baseKept entries incl name
     || (!excludeRelated && oneHop entries rels incl name))
  && !(excl.contains name)

/-- Modelled from the spec: step 4 of the extraction algorithm of the missing
`extract_services` routine — strip the `constraints` attribute when
`removeConstraints`, and the `to` placement attribute when `removePlacements`
(absence of either attribute is not an error). -/
def stripAttrs (removeConstraints removePlacements : Bool) (s : Service) :
    Service :=
  let s1 := if removeConstraints then s.filter (fun a => a.1 != "constraints")
            else s
  if removePlacements then s1.filter (fun a => a.1 != "to") else s1

/-- Modelled from the spec: the repository's `extract_services` routine
(`lib.common.tools_common`, not among the visible sources). Fails with
`invalidDocument` when the `services` section is missing or not a mapping;
otherwise resolves the kept-service set, filters services and relations in
original order, strips attributes per the toggles, and passes other top-level
keys through unchanged. -/
def extract (doc : Document) (incl excl : List String)
    (excludeRelated removeConstraints removePlacements : Bool) :
    Except ExtractError Document :=
  match doc.services with
  | none => .error .invalidDocument
  | some .scalar => .error .invalidDocument
  | some (.mapping entries) =>
      let keep := kept entries doc.relations incl excl excludeRelated
      let newEntries :=
        (entries.filter (fun e => keep e.1)).map
          (fun e => (e.1, stripAttrs removeConstraints removePlacements e.2))
      let newRels :=
        doc.relations.filter
          (fun r => keep (stripInterface r.1) && keep (stripInterface r.2))
      .ok { services := some (.mapping newEntries)
            relations := newRels
            other := doc.other }

/-- The service entries of a document, or `[]` when the `services` section is
missing or not a mapping. -/
def Document.serviceEntries (d : Document) : List (String × Service) :=
  match d.services with
  | some (.mapping es) => es
  | _ => []

/-- The ordered sequence of service names (mapping keys) of a document. -/
def serviceKeys (d : Document) : List String :=
  d.serviceEntries.map Prod.fst

/-- The specification's 3-node chain scenario: services A, B, C with relations
(A, B) and (B, C), used to check that related-service expansion is one-hop
only. -/
def chainDoc : Document :=
  { services := some (.mapping [("A", []), ("B", []), ("C", [])])
    relations := [("A", "B"), ("B", "C")]
    other := [] }

end BundleReducer

namespace ReducerCli

open BundleReducer

/-- Uppercase an ASCII lowercase letter, embedding Python `str.upper` for the
ASCII strings the driver compares. -/
def upperChar (c : Char) : Char :=
  if c.isLower then Char.ofNat (c.toNat - 32) else c

/-- Embedding of Python `str.upper` (driver strings are ASCII). -/
def pyUpper (s : String) : String :=
  String.mk (s.data.map upperChar)

/-- Split accumulated characters at commas, embedding Python
`str.split(',')`. -/
def splitCommaAux : List Char → List Char → List String
  | [], acc => [String.mk acc.reverse]
  | c :: cs, acc =>
      if c = ',' then String.mk acc.reverse :: splitCommaAux cs []
      else splitCommaAux cs (c :: acc)

/-- Embedding of Python `str.split(',')`. -/
def splitComma (s : String) : List String :=
  splitCommaAux s.data []

/-- The parsed command-line options of `reducer_cli.option_handler`
(`opts` fields with their optparse `dest` names). -/
structure Opts where
  debug : Bool
  overwrite : Bool
  in_file : Option String
  out_file : String
  include_services : String
  exclude_services : Option String
  exclude_related : Bool
  remove_constraints : Bool
  remove_placements : Bool
deriving DecidableEq, Repr

/-- The optparse default for `--services` (`default="ALL"`). -/
def defaultIncludeServices : String := "ALL"

/-- Python truthiness of an optional string option: `None` and `''` are
falsy. -/
def truthy : Option String → Bool
  | none => false
  | some s => !(s == "")

/-- Outcome of `option_handler`: `sys.exit(1)` on a missing required option, a
`ValueError` for an existing output file without the overwrite flag or for a
missing input file, or a normal return (recording whether the overwrite
warning was logged). -/
inductive HandlerResult where
  | exitMissing
  | errorOverwrite
  | errorInputMissing
  | ok (warnedOverwrite : Bool)
deriving DecidableEq, Repr

/-- Embedding of `option_handler` (reducer_cli.py lines 58-132): validates the
options against the file system (`isFile` tells which paths name existing
files) in source order — missing required options first, then the
output-overwrite check, then input-file existence. -/
def option_handler (isFile : String → Bool) (o : Opts) : HandlerResult :=
  if !(truthy o.in_file) || o.out_file == "" || o.include_services == "" then
    .exitMissing
  else if isFile o.out_file && o.overwrite then
    if !(isFile (o.in_file.getD "")) then .errorInputMissing else .ok true
  else if isFile o.out_file && !o.overwrite then
    .errorOverwrite
  else
    if !(isFile (o.in_file.getD "")) then .errorInputMissing else .ok false

/-- Final outcome of a `main` run: option validation failed, the unimplemented
include-ALL branch was taken, or extraction ran with the given parsed
parameters. -/
inductive MainOutcome where
  | optionError (r : HandlerResult)
  | allNotImplemented
  | ran (svcsInclude svcsExclude : List String)
      (excludeRelated rmConstraints rmPlacements : Bool)
deriving DecidableEq, Repr

/-- Observable trace of one `main` run: the outcome, whether an error-level
message was logged, and whether the input document was read, the extractor
called, and the output file written. -/
structure MainTrace where
  outcome : MainOutcome
  errorLogged : Bool
  readInput : Bool
  calledExtract : Bool
  wroteOutput : Bool
deriving DecidableEq, Repr

/-- Embedding of `main` (reducer_cli.py lines 136-173): run `option_handler`;
on its failure nothing further happens (an exception or exit propagates). On
success, if the uppercased include-service string equals `"ALL"` log an error
and return without reading, extracting, or writing; otherwise split the
include and exclude lists and read, extract, and write. -/
def mainRun (isFile : String → Bool) (o : Opts) : MainTrace :=
  match option_handler isFile o with
  | .exitMissing =>
      ⟨.optionError .exitMissing, true, false, false, false⟩
  | .errorOverwrite =>
      ⟨.optionError .errorOverwrite, true, false, false, false⟩
  | .errorInputMissing =>
      ⟨.optionError .errorInputMissing, false, false, false, false⟩
  | .ok _ =>
      if pyUpper o.include_services == "ALL" then
        ⟨.allNotImplemented, true, false, false, false⟩
      else
        let svcsInclude := splitComma o.include_services
        let svcsExclude := match o.exclude_services with
          | some e => if e == "" then [] else splitComma e
          | none => []
        ⟨.ran svcsInclude svcsExclude o.exclude_related o.remove_constraints
            o.remove_placements,
         false, true, true, true⟩

end ReducerCli

/-!
Helper lemmas shared by the claim theorems.
-/

namespace BundleReducer

/-- Mapping a key-preserving function over the entry values does not change
the key sequence. -/
theorem map_fst_pairMap (l : List (String × Service)) (f : Service → Service) :
    (l.map (fun e => (e.1, f e.2))).map Prod.fst = l.map Prod.fst := by
  induction l with
  | nil => rfl
  | cons e t ih => simp [ih]

/-- A kept service name is always a known service name: both the base
include-intersection and the one-hop expansion require presence in the
services mapping. -/
theorem kept_mem_known {entries : List (String × Service)}
    {rels : List (String × String)} {incl excl : List String} {xr : Bool}
    {name : String}
    (h : kept entries rels incl excl xr name = true) :
    name ∈ knownNames entries := by
  simp [kept, baseKept, oneHop] at h
  rcases h with ⟨h1, _⟩
  rcases h1 with ⟨_, h2⟩ | ⟨_, h2, _⟩
  exacts [h2, h2]

/-- A known, kept service name appears among the keys of the filtered and
value-rewritten output entries. -/
theorem kept_mem_outKeys {entries : List (String × Service)}
    {rels : List (String × String)} {incl excl : List String} {xr : Bool}
    {name : String} (f : Service → Service)
    (hmem : name ∈ knownNames entries)
    (hk : kept entries rels incl excl xr name = true) :
    name ∈ ((entries.filter (fun e => kept entries rels incl excl xr e.1)).map
        (fun e => (e.1, f e.2))).map Prod.fst := by
  rw [map_fst_pairMap]
  rcases List.mem_map.1 hmem with ⟨e, he, hfst⟩
  refine List.mem_map.2 ⟨e, List.mem_filter.2 ⟨he, ?_⟩, hfst⟩
  rw [hfst]
  exact hk

/-- A name in the exclude set is never kept, whatever the other parameters. -/
theorem kept_of_excl {entries : List (String × Service)}
    {rels : List (String × String)} {incl excl : List String} {xr : Bool}
    {name : String} (hmem : name ∈ excl) :
    kept entries rels incl excl xr name = false := by
  simp [kept, hmem]

/-- With `removeConstraints` set, no attribute surviving `stripAttrs` has the
key `constraints`. -/
theorem mem_stripAttrs_constraints {rp : Bool} {s : Service}
    {a : String × String}
    (ha : a ∈ stripAttrs true rp s) : a.1 ≠ "constraints" := by
  cases rp <;> simp [stripAttrs, List.mem_filter] at ha <;> tauto

end BundleReducer

/-!
Claim theorems.
-/

namespace BundleReducer

/-- Claim C1: for every input document, include set, exclude set and toggle
flags, every relation in the extracted document has both endpoint service
names (after stripping any `:interface` suffix) present as keys of the
returned services mapping — no output relation references an absent
service. -/
theorem relation_endpoints_in_services (doc : Document)
    (incl excl : List String) (xr rc rp : Bool) (out : Document)
    (hok : extract doc incl excl xr rc rp = Except.ok out) :
    ∀ r ∈ out.relations,
      stripInterface r.1 ∈ serviceKeys out ∧
      stripInterface r.2 ∈ serviceKeys out := by
  cases hs : doc.services with
  | none => simp [extract, hs] at hok
  | some ss =>
    cases ss with
    | scalar => simp [extract, hs] at hok
    | mapping entries =>
      simp only [extract, hs, Except.ok.injEq] at hok
      subst hok
      intro r hr
      simp only [List.mem_filter, Bool.and_eq_true] at hr
      rcases hr with ⟨_, hk1, hk2⟩
      exact ⟨kept_mem_outKeys _ (kept_mem_known hk1) hk1,
        kept_mem_outKeys _ (kept_mem_known hk2) hk2⟩

/-- Witness for claim C1: extracting both services of a two-service document
with one relation keeps the relation, and both stripped endpoints are keys of
the output services mapping. -/
theorem relation_endpoints_in_services_witness :
    stripInterface "A" ∈ serviceKeys
      { services := some (.mapping [("A", []), ("B", [])])
        relations := [("A", "B")]
        other := [] } ∧
    stripInterface "B" ∈ serviceKeys
      { services := some (.mapping [("A", []), ("B", [])])
        relations := [("A", "B")]
        other := [] } :=
  relation_endpoints_in_services
    { services := some (.mapping [("A", []), ("B", [])])
      relations := [("A", "B")]
      other := [] }
    ["A", "B"] [] false false false
    { services := some (.mapping [("A", []), ("B", [])])
      relations := [("A", "B")]
      other := [] }
    rfl ("A", "B") (by decide)

/-- Claim C2: a service name in the exclude set is absent from the output —
it is neither a key of the output services mapping nor a stripped endpoint of
any output relation, even if it is also included or would be pulled in by
related-service expansion. -/
theorem excluded_service_absent (doc : Document) (incl excl : List String)
    (xr rc rp : Bool) (out : Document) (name : String)
    (hmem : name ∈ excl)
    (hok : extract doc incl excl xr rc rp = Except.ok out) :
    name ∉ serviceKeys out ∧
    ∀ r ∈ out.relations,
      stripInterface r.1 ≠ name ∧ stripInterface r.2 ≠ name := by
  cases hs : doc.services with
  | none => simp [extract, hs] at hok
  | some ss =>
    cases ss with
    | scalar => simp [extract, hs] at hok
    | mapping entries =>
      simp only [extract, hs, Except.ok.injEq] at hok
      subst hok
      constructor
      · intro hmem2
        simp only [serviceKeys, Document.serviceEntries,
          map_fst_pairMap] at hmem2
        rcases List.mem_map.1 hmem2 with ⟨e, he, hfst⟩
        rcases List.mem_filter.1 he with ⟨_, hp⟩
        rw [hfst] at hp
        rw [kept_of_excl hmem] at hp
        exact Bool.false_ne_true hp
      · intro r hr
        rcases List.mem_filter.1 hr with ⟨_, hp⟩
        rw [Bool.and_eq_true] at hp
        constructor
        · intro h1
          rw [h1, kept_of_excl hmem] at hp
          exact Bool.false_ne_true hp.1
        · intro h2
          rw [h2, kept_of_excl hmem] at hp
          exact Bool.false_ne_true hp.2

/-- Witness for claim C2: with `B` both included and excluded, `B` is not a
key of the output services mapping. -/
theorem excluded_service_absent_witness :
    "B" ∉ serviceKeys
      { services := some (.mapping [("A", [])])
        relations := []
        other := [] } :=
  (excluded_service_absent
    { services := some (.mapping [("A", []), ("B", [])])
      relations := [("A", "B")]
      other := [] }
    ["A", "B"] ["B"] false false false
    { services := some (.mapping [("A", [])])
      relations := []
      other := [] }
    "B" (by decide) rfl).1

/-- Claim C3: with `excludeRelated` false, the kept set is the
included-and-present services plus their one-hop neighbours: any relation edge
with exactly one stripped endpoint in the original include-intersection and
the other a known, non-excluded service makes that other endpoint kept; and on
the 3-node chain A–B–C with relations (A,B), (B,C) and include {A}, extraction
keeps exactly {A, B} (C, reachable only through the newly added B, is
absent — no transitive closure). -/
theorem one_hop_expansion (entries : List (String × Service))
    (rels : List (String × String)) (incl excl : List String)
    (r : String × String) (name : String)
    (hr : r ∈ rels)
    (hone : (baseKept entries incl (stripInterface r.1) = true ∧
             baseKept entries incl (stripInterface r.2) = false ∧
             name = stripInterface r.2) ∨
            (baseKept entries incl (stripInterface r.2) = true ∧
             baseKept entries incl (stripInterface r.1) = false ∧
             name = stripInterface r.1))
    (hknown : name ∈ knownNames entries)
    (hexcl : name ∉ excl) :
    kept entries rels incl excl false name = true ∧
    extract chainDoc ["A"] [] false false false =
      Except.ok { services := some (.mapping [("A", []), ("B", [])])
                  relations := [("A", "B")]
                  other := [] } := by
  refine ⟨?_, rfl⟩
  have hko : oneHop entries rels incl name = true := by
    simp only [oneHop, Bool.and_eq_true, List.any_eq_true]
    refine ⟨?_, ⟨r, hr, ?_⟩⟩
    · simpa [knownNames] using hknown
    · simp only [Bool.or_eq_true, Bool.and_eq_true, Bool.not_eq_true',
        beq_iff_eq]
      rcases hone with ⟨h1, h2, h3⟩ | ⟨h1, h2, h3⟩
      · exact Or.inl ⟨⟨h1, h2⟩, h3.symm⟩
      · exact Or.inr ⟨⟨h1, h2⟩, h3.symm⟩
  simp [kept, hko, hexcl]

/-- Witness for claim C3: on the chain document, `B` (one-hop neighbour of the
included `A`) is kept. -/
theorem one_hop_expansion_witness :
    kept [("A", []), ("B", []), ("C", [])] [("A", "B"), ("B", "C")]
      ["A"] [] false "B" = true :=
  (one_hop_expansion [("A", []), ("B", []), ("C", [])]
    [("A", "B"), ("B", "C")] ["A"] [] ("A", "B") "B"
    (by decide) (Or.inl ⟨by decide, by decide, by decide⟩)
    (by decide) (by decide)).1

/-- Claim C4: the output service-key sequence is a subsequence, in original
order, of the input service keys, and the output relations are a subsequence
of the input relations; extraction never reorders, and (keys or relations
being duplicate-free in the input) never duplicates an entry. -/
theorem order_preserved (doc : Document) (incl excl : List String)
    (xr rc rp : Bool) (out : Document)
    (hok : extract doc incl excl xr rc rp = Except.ok out) :
    (serviceKeys out).Sublist (serviceKeys doc) ∧
    out.relations.Sublist doc.relations ∧
    ((serviceKeys doc).Nodup → (serviceKeys out).Nodup) ∧
    (doc.relations.Nodup → out.relations.Nodup) := by
  cases hs : doc.services with
  | none => simp [extract, hs] at hok
  | some ss =>
    cases ss with
    | scalar => simp [extract, hs] at hok
    | mapping entries =>
      simp only [extract, hs, Except.ok.injEq] at hok
      subst hok
      have h1 : (serviceKeys
          { services := some (.mapping ((entries.filter
              (fun e => kept entries doc.relations incl excl xr e.1)).map
              (fun e => (e.1, stripAttrs rc rp e.2))))
            relations := doc.relations.filter
              (fun r => kept entries doc.relations incl excl xr
                  (stripInterface r.1) &&
                kept entries doc.relations incl excl xr (stripInterface r.2))
            other := doc.other }).Sublist (serviceKeys doc) := by
        simp only [serviceKeys, Document.serviceEntries, map_fst_pairMap, hs]
        exact (List.filter_sublist _).map _
      exact ⟨h1, List.filter_sublist _, fun hn => h1.nodup hn,
        fun hn => (List.filter_sublist _).nodup hn⟩

/-- Witness for claim C4: the example reduction keeps key and relation order
as subsequences of the input. -/
theorem order_preserved_witness :
    (serviceKeys { services := some (.mapping [("A", []), ("B", [])])
                   relations := [("A", "B")]
                   other := [] }).Sublist
      (serviceKeys { services := some (.mapping
                       [("A", []), ("B", []), ("C", [])])
                     relations := [("A", "B"), ("B", "C")]
                     other := [] }) ∧
    ([("A", "B")] : List (String × String)).Sublist
      [("A", "B"), ("B", "C")] := by
  have h := order_preserved
    { services := some (.mapping [("A", []), ("B", []), ("C", [])])
      relations := [("A", "B"), ("B", "C")]
      other := [] }
    ["A", "B"] [] true false false
    { services := some (.mapping [("A", []), ("B", [])])
      relations := [("A", "B")]
      other := [] }
    rfl
  exact ⟨h.1, h.2.1⟩

/-- Claim C5: when `removeConstraints` is true, no service surviving
extraction retains a `constraints` attribute, whether or not the input
service had one (absence is not an error). -/
theorem constraints_stripped (doc : Document) (incl excl : List String)
    (xr rp : Bool) (out : Document)
    (hok : extract doc incl excl xr true rp = Except.ok out) :
    ∀ e ∈ out.serviceEntries, ∀ a ∈ e.2, a.1 ≠ "constraints" := by
  cases hs : doc.services with
  | none => simp [extract, hs] at hok
  | some ss =>
    cases ss with
    | scalar => simp [extract, hs] at hok
    | mapping entries =>
      simp only [extract, hs, Except.ok.injEq] at hok
      subst hok
      intro e he a ha
      simp only [Document.serviceEntries] at he
      rcases List.mem_map.1 he with ⟨e0, _, rfl⟩
      exact mem_stripAttrs_constraints ha

/-- Witness for claim C5: extracting with `removeConstraints` from a document
whose service carries a constraints attribute keeps the service without it,
and the surviving attribute is not `constraints`. -/
theorem constraints_stripped_witness :
    extract
      { services := some (.mapping
          [("A", [("constraints", "mem=2G"), ("charm", "x")])])
        relations := []
        other := [] }
      ["A"] [] false true false =
      Except.ok { services := some (.mapping [("A", [("charm", "x")])])
                  relations := []
                  other := [] } ∧
    (("charm", "x") : String × String).1 ≠ "constraints" :=
  ⟨rfl,
    constraints_stripped
      { services := some (.mapping
          [("A", [("constraints", "mem=2G"), ("charm", "x")])])
        relations := []
        other := [] }
      ["A"] [] false false
      { services := some (.mapping [("A", [("charm", "x")])])
        relations := []
        other := [] }
      rfl ("A", [("charm", "x")]) (by decide) ("charm", "x") (by decide)⟩

/-- Claim C7: extraction fails — with the distinguishable `invalidDocument`
error — exactly when the `services` section is missing or not a mapping; for
every document with a services mapping (whatever the selector sets, unknown
names, or dangling relation endpoints) it succeeds and returns a well-formed
document with a services mapping and the other top-level keys passed
through. -/
theorem invalid_document_error (doc : Document) (incl excl : List String)
    (xr rc rp : Bool) :
    ((doc.services = none ∨ doc.services = some ServicesSection.scalar) →
       extract doc incl excl xr rc rp =
         Except.error ExtractError.invalidDocument) ∧
    (∀ entries, doc.services = some (ServicesSection.mapping entries) →
       ∃ outEntries newRels, extract doc incl excl xr rc rp =
         Except.ok { services := some (ServicesSection.mapping outEntries)
                     relations := newRels
                     other := doc.other }) := by
  obtain ⟨s, rels, oth⟩ := doc
  constructor
  · rintro (h | h) <;> (cases h; rfl)
  · intro entries h
    cases h
    exact ⟨_, _, rfl⟩

/-- Witness for claim C7: a document without a `services` section is rejected
with `invalidDocument`, and one with an empty services mapping (and an
include set naming no known service) extracts successfully. -/
theorem invalid_document_error_witness :
    extract { services := none, relations := [], other := [] }
      ["a"] [] false false false =
      Except.error ExtractError.invalidDocument ∧
    extract { services := some (ServicesSection.mapping []),
              relations := [("x", "y")], other := [] }
      ["a"] [] false false false =
      Except.ok { services := some (ServicesSection.mapping [])
                  relations := []
                  other := [] } :=
  ⟨(invalid_document_error
      { services := none, relations := [], other := [] }
      ["a"] [] false false false).1 (Or.inl rfl),
   rfl⟩

end BundleReducer

namespace ReducerCli

/-- Claim C8: when the include-service list equals the "all services" sentinel
(after option validation succeeds), `main` logs an explicit error for the
unimplemented feature and returns without reading the input document, calling
the extractor, or writing an output document — distinguishable from a normal
completed run. -/
theorem all_sentinel_skips_extraction (isFile : String → Bool) (o : Opts)
    (w : Bool)
    (hok : option_handler isFile o = HandlerResult.ok w)
    (hall : pyUpper o.include_services = "ALL") :
    mainRun isFile o =
      { outcome := MainOutcome.allNotImplemented
        errorLogged := true
        readInput := false
        calledExtract := false
        wroteOutput := false } := by
  simp [mainRun, hok, hall]

/-- Witness for claim C8: a run with `-s ALL` on an existing input file and a
fresh output file stops at the unimplemented-feature error. -/
theorem all_sentinel_skips_extraction_witness :
    mainRun (fun p => p == "in.yaml")
      { debug := false, overwrite := false, in_file := some "in.yaml"
        out_file := "out.yaml", include_services := "ALL"
        exclude_services := none, exclude_related := false
        remove_constraints := false, remove_placements := false } =
      { outcome := MainOutcome.allNotImplemented
        errorLogged := true
        readInput := false
        calledExtract := false
        wroteOutput := false } :=
  all_sentinel_skips_extraction (fun p => p == "in.yaml")
    { debug := false, overwrite := false, in_file := some "in.yaml"
      out_file := "out.yaml", include_services := "ALL"
      exclude_services := none, exclude_related := false
      remove_constraints := false, remove_placements := false }
    false (by decide) (by decide)

/-- Claim C9: with the required options supplied, if the output path names an
existing file and the overwrite flag is not set, `option_handler` raises
`ValueError` and the tool neither reads the input document nor writes the
output file; with the overwrite flag set (and the input file present),
`option_handler` warns about the overwrite and returns normally, and a
non-sentinel run goes on to write the output file. -/
theorem overwrite_protection (isFile : String → Bool) (o : Opts)
    (hin : truthy o.in_file = true)
    (hout : o.out_file ≠ "")
    (hincl : o.include_services ≠ "")
    (hexists : isFile o.out_file = true) :
    (o.overwrite = false →
       option_handler isFile o = HandlerResult.errorOverwrite ∧
       (mainRun isFile o).readInput = false ∧
       (mainRun isFile o).calledExtract = false ∧
       (mainRun isFile o).wroteOutput = false) ∧
    (o.overwrite = true → isFile (o.in_file.getD "") = true →
       option_handler isFile o = HandlerResult.ok true ∧
       (pyUpper o.include_services ≠ "ALL" →
         (mainRun isFile o).wroteOutput = true)) := by
  constructor
  · intro hov
    have h : option_handler isFile o = HandlerResult.errorOverwrite := by
      simp [option_handler, hin, hout, hincl, hexists, hov]
    refine ⟨h, ?_, ?_, ?_⟩ <;> simp [mainRun, h]
  · intro hov hinex
    have h : option_handler isFile o = HandlerResult.ok true := by
      simp [option_handler, hin, hout, hincl, hexists, hov, hinex]
    refine ⟨h, fun hne => ?_⟩
    simp [mainRun, h, hne]

/-- Witness for claim C9: with an existing `out.yaml` and no overwrite flag,
`option_handler` fails with the overwrite `ValueError` and the run neither
reads the input nor writes the output. -/
theorem overwrite_protection_witness :
    option_handler (fun p => p == "out.yaml")
      { debug := false, overwrite := false, in_file := some "in.yaml"
        out_file := "out.yaml", include_services := "keystone"
        exclude_services := none, exclude_related := false
        remove_constraints := false, remove_placements := false } =
      HandlerResult.errorOverwrite ∧
    (mainRun (fun p => p == "out.yaml")
      { debug := false, overwrite := false, in_file := some "in.yaml"
        out_file := "out.yaml", include_services := "keystone"
        exclude_services := none, exclude_related := false
        remove_constraints := false, remove_placements := false
        }).readInput = false ∧
    (mainRun (fun p => p == "out.yaml")
      { debug := false, overwrite := false, in_file := some "in.yaml"
        out_file := "out.yaml", include_services := "keystone"
        exclude_services := none, exclude_related := false
        remove_constraints := false, remove_placements := false
        }).wroteOutput = false := by
  have h := (overwrite_protection (fun p => p == "out.yaml")
    { debug := false, overwrite := false, in_file := some "in.yaml"
      out_file := "out.yaml", include_services := "keystone"
      exclude_services := none, exclude_related := false
      remove_constraints := false, remove_placements := false }
    (by decide) (by decide) (by decide) (by decide)).1 (by decide)
  exact ⟨h.1, h.2.1, h.2.2.2⟩

/-- Counterexample to claim C10: with the include string `"all,x"` (whose
uppercasing is `"ALL,X"`, not `"ALL"`), `main` does not take the sentinel
branch: it proceeds to extraction with the include set `{"all", "x"}`, so a
bundle service literally named `all` IS selected for inclusion through the
command line, contradicting the claim that it never can be. -/
theorem sentinel_counterexample :
    (mainRun (fun p => p == "in.yaml")
      { debug := false, overwrite := false, in_file := some "in.yaml"
        out_file := "out.yaml", include_services := "all,x"
        exclude_services := none, exclude_related := false
        remove_constraints := false, remove_placements := false }).outcome =
      MainOutcome.ran ["all", "x"] [] false false false ∧
    (mainRun (fun p => p == "in.yaml")
      { debug := false, overwrite := false, in_file := some "in.yaml"
        out_file := "out.yaml", include_services := "all,x"
        exclude_services := none, exclude_related := false
        remove_constraints := false, remove_placements := false
        }).calledExtract = true ∧
    "all" ∈ (["all", "x"] : List String) := by
  decide

/-- Claim C10 (amended): the sentinel test is case-insensitive — after
successful option validation, `main` takes the unimplemented-ALL branch, and
never calls the extractor, for every include string whose uppercasing equals
`"ALL"` (such as `"all"`, `"All"`, `"aLL"`), and `"ALL"` is the optparse
default when no `-s` option is given; a service literally named `all` is thus
unselectable only when it is the whole include string, since the comparison
uppercases the entire comma-separated list. -/
theorem sentinel_case_insensitive (isFile : String → Bool) (o : Opts)
    (w : Bool)
    (hok : option_handler isFile o = HandlerResult.ok w)
    (hall : pyUpper o.include_services = "ALL") :
    (mainRun isFile o).outcome = MainOutcome.allNotImplemented ∧
    (mainRun isFile o).calledExtract = false ∧
    pyUpper "all" = "ALL" ∧ pyUpper "All" = "ALL" ∧ pyUpper "aLL" = "ALL" ∧
    defaultIncludeServices = "ALL" := by
  refine ⟨?_, ?_, by decide, by decide, by decide, rfl⟩ <;>
    simp [mainRun, hok, hall]

/-- Witness for claim C10 (amended): a run with the lowercase include string
`"all"` takes the unimplemented-ALL branch and never calls the extractor. -/
theorem sentinel_case_insensitive_witness :
    (mainRun (fun p => p == "in.yaml")
      { debug := false, overwrite := false, in_file := some "in.yaml"
        out_file := "out.yaml", include_services := "all"
        exclude_services := none, exclude_related := false
        remove_constraints := false, remove_placements := false }).outcome =
      MainOutcome.allNotImplemented ∧
    (mainRun (fun p => p == "in.yaml")
      { debug := false, overwrite := false, in_file := some "in.yaml"
        out_file := "out.yaml", include_services := "all"
        exclude_services := none, exclude_related := false
        remove_constraints := false, remove_placements := false
        }).calledExtract = false := by
  have h := sentinel_case_insensitive (fun p => p == "in.yaml")
    { debug := false, overwrite := false, in_file := some "in.yaml"
      out_file := "out.yaml", include_services := "all"
      exclude_services := none, exclude_related := false
      remove_constraints := false, remove_placements := false }
    false (by decide) (by decide)
  exact ⟨h.1, h.2.1⟩

end ReducerCli
